import Mathlib

/-!
Verification of the subprocess-result protocol implemented by
`src/app/api/classify-audio/route.ts`.

The route handler spawns an external worker process, buffers its stdout and
stderr, and on clean exit extracts a trailing JSON object from the stdout
buffer by scanning lines backward and accumulating lines forward until a
parse succeeds.  This file gives a shallow embedding of that logic:

* `Json` / `jsonParse` model the JavaScript `JSON.parse` builtin (numbers are
  kept as their literal token text, which suffices for parse identity);
* `jsTrim`, `jsSplitNl`, `startsWithBrace` model the string operations
  `String.prototype.trim`, `String.prototype.split("\n")` and
  `String.prototype.startsWith("{")` used by the handler;
* `extractJson` models the backward-scan / forward-accumulate extraction
  loop exactly as written in the source (in particular the inner loop pushes
  a continuation line before its first parse attempt);
* `handleClose` models the `close`-event callback, `HttpResponse` the
  `NextResponse.json(body, status)` values it resolves with;
* `spawnStep` / `runSpawn` model the promise machinery: the handlers the
  code registers (stdout data, stderr data, close), the unregistered
  process error event, the 60000 ms timeout callback, and the
  resolve-at-most-once semantics of a JavaScript promise;
* `validateAndInvoke` / `POST` model request validation and invocation.
-/

/-- JSON values as produced by a parse.  A numeric literal is kept as its
source token (the claims never compare numbers across distinct spellings). -/
inductive Json where
  | jnull : Json
  | jbool : Bool → Json
  | num : String → Json
  | str : String → Json
  | arr : List Json → Json
  | obj : List (String × Json) → Json

/-- JSON whitespace accepted between tokens by `JSON.parse`. -/
def isJsonWs (c : Char) : Bool :=
  c = ' ' || c = '\t' || c = '\n' || c = '\r'

/-- Drop leading JSON whitespace. -/
def skipWs : List Char → List Char
  | [] => []
  | c :: cs => if isJsonWs c then skipWs cs else c :: cs

/-- Take a maximal run of decimal digits. -/
def takeDigits : List Char → (List Char × List Char)
  | [] => ([], [])
  | c :: cs =>
    if c.isDigit then
      let p := takeDigits cs
      (c :: p.1, p.2)
    else ([], c :: cs)

/-- Optional fraction part of a JSON number. -/
def parseFrac : List Char → Option (List Char × List Char)
  | '.' :: rest =>
    match takeDigits rest with
    | ([], _) => none
    | (ds, r) => some ('.' :: ds, r)
  | cs => some ([], cs)

/-- Optional exponent part of a JSON number. -/
def parseExp : List Char → Option (List Char × List Char)
  | [] => some ([], [])
  | c :: rest =>
    if c = 'e' || c = 'E' then
      match rest with
      | [] => none
      | s :: rest2 =>
        if s = '+' || s = '-' then
          match takeDigits rest2 with
          | ([], _) => none
          | (ds, r) => some (c :: s :: ds, r)
        else
          match takeDigits rest with
          | ([], _) => none
          | (ds, r) => some (c :: ds, r)
    else some ([], c :: rest)

/-- A JSON number literal: optional minus, integer part with no leading
zeros, optional fraction, optional exponent.  Returns the literal text. -/
def parseNumber (cs : List Char) : Option (String × List Char) :=
  let sp : String × List Char :=
    match cs with
    | '-' :: rest => ("-", rest)
    | _ => ("", cs)
  match takeDigits sp.2 with
  | ([], _) => none
  | (intPart, cs2) =>
    if intPart.length > 1 && intPart.headD '0' = '0' then none
    else
      match parseFrac cs2 with
      | none => none
      | some (fracPart, cs3) =>
        match parseExp cs3 with
        | none => none
        | some (expPart, cs4) =>
          some (sp.1 ++ String.mk intPart ++ String.mk fracPart ++
                String.mk expPart, cs4)

/-- Value of a hexadecimal digit. -/
def hexDigitVal (c : Char) : Option Nat :=
  if '0' ≤ c ∧ c ≤ '9' then some (c.toNat - '0'.toNat)
  else if 'a' ≤ c ∧ c ≤ 'f' then some (c.toNat - 'a'.toNat + 10)
  else if 'A' ≤ c ∧ c ≤ 'F' then some (c.toNat - 'A'.toNat + 10)
  else none

/-- Body of a JSON string, after the opening quote; returns the decoded
characters and the input after the closing quote.  Raw control characters
are rejected as `JSON.parse` rejects them. -/
def parseStringRest : Nat → List Char → Option (List Char × List Char)
  | 0, _ => none
  | _ + 1, [] => none
  | fuel + 1, c :: cs =>
    if c = '"' then some ([], cs)
    else if c = '\\' then
      match cs with
      | [] => none
      | e :: cs2 =>
        let esc : Option (Char × List Char) :=
          if e = '"' then some ('"', cs2)
          else if e = '\\' then some ('\\', cs2)
          else if e = '/' then some ('/', cs2)
          else if e = 'b' then some ('\x08', cs2)
          else if e = 'f' then some ('\x0c', cs2)
          else if e = 'n' then some ('\n', cs2)
          else if e = 'r' then some ('\r', cs2)
          else if e = 't' then some ('\t', cs2)
          else if e = 'u' then
            match cs2 with
            | h1 :: h2 :: h3 :: h4 :: cs3 =>
              match hexDigitVal h1, hexDigitVal h2, hexDigitVal h3,
                    hexDigitVal h4 with
              | some a, some b, some c4, some d =>
                some (Char.ofNat (((a * 16 + b) * 16 + c4) * 16 + d), cs3)
              | _, _, _, _ => none
            | _ => none
          else none
        match esc with
        | none => none
        | some (ch, rest) =>
          match parseStringRest fuel rest with
          | some (content, r) => some (ch :: content, r)
          | none => none
    else if c.toNat < 32 then none
    else
      match parseStringRest fuel cs with
      | some (content, r) => some (c :: content, r)
      | none => none

/-- Duplicate object keys: a later occurrence overwrites the value at the
original insertion position, as in a JavaScript object literal. -/
def insertKey (acc : List (String × Json)) (k : String) (v : Json) :
    List (String × Json) :=
  if acc.any (fun p => p.1 == k) then
    acc.map (fun p => if p.1 == k then (k, v) else p)
  else acc ++ [(k, v)]

mutual

/-- One JSON value, fueled; models `JSON.parse` value recognition. -/
def parseValue : Nat → List Char → Option (Json × List Char)
  | 0, _ => none
  | fuel + 1, cs =>
    match skipWs cs with
    | [] => none
    | c :: rest =>
      if c = '\x7b' then parseObjectBody fuel rest
      else if c = '[' then parseArrayBody fuel rest
      else if c = '"' then
        match parseStringRest (rest.length + 1) rest with
        | some (content, r) => some (Json.str (String.mk content), r)
        | none => none
      else if c = 't' then
        match rest with
        | 'r' :: 'u' :: 'e' :: r => some (Json.jbool true, r)
        | _ => none
      else if c = 'f' then
        match rest with
        | 'a' :: 'l' :: 's' :: 'e' :: r => some (Json.jbool false, r)
        | _ => none
      else if c = 'n' then
        match rest with
        | 'u' :: 'l' :: 'l' :: r => some (Json.jnull, r)
        | _ => none
      else if c = '-' || c.isDigit then
        match parseNumber (c :: rest) with
        | some (lit, r) => some (Json.num lit, r)
        | none => none
      else none

/-- Object body, after the opening brace. -/
def parseObjectBody : Nat → List Char → Option (Json × List Char)
  | 0, _ => none
  | fuel + 1, cs =>
    match skipWs cs with
    | '\x7d' :: r => some (Json.obj [], r)
    | _ => parseMembers fuel cs []

/-- Object members, accumulating parsed key/value pairs. -/
def parseMembers : Nat → List Char → List (String × Json) →
    Option (Json × List Char)
  | 0, _, _ => none
  | fuel + 1, cs, acc =>
    match skipWs cs with
    | '"' :: rest =>
      match parseStringRest (rest.length + 1) rest with
      | none => none
      | some (key, r1) =>
        match skipWs r1 with
        | ':' :: r2 =>
          match parseValue fuel r2 with
          | none => none
          | some (v, r3) =>
            match skipWs r3 with
            | ',' :: r4 => parseMembers fuel r4 (insertKey acc (String.mk key) v)
            | '\x7d' :: r4 => some (Json.obj (insertKey acc (String.mk key) v), r4)
            | _ => none
        | _ => none
    | _ => none

/-- Array body, after the opening bracket. -/
def parseArrayBody : Nat → List Char → Option (Json × List Char)
  | 0, _ => none
  | fuel + 1, cs =>
    match skipWs cs with
    | ']' :: r => some (Json.arr [], r)
    | _ => parseItems fuel cs []

/-- Array items, accumulating parsed values. -/
def parseItems : Nat → List Char → List Json → Option (Json × List Char)
  | 0, _, _ => none
  | fuel + 1, cs, acc =>
    match parseValue fuel cs with
    | none => none
    | some (v, r1) =>
      match skipWs r1 with
      | ',' :: r2 => parseItems fuel r2 (acc ++ [v])
      | ']' :: r2 => some (Json.arr (acc ++ [v]), r2)
      | _ => none

end

/-- `JSON.parse`: one value, with only whitespace allowed after it; any
trailing non-whitespace text makes the whole parse fail. -/
def jsonParse (s : String) : Option Json :=
  match parseValue (s.length * 2 + 2) s.data with
  | some (v, rest) =>
    match skipWs rest with
    | [] => some v
    | _ => none
  | none => none

example : jsonParse "\x7b\x22a\x22:1\x7d" = some (Json.obj [("a", Json.num "1")]) := rfl
example : jsonParse "\x7b\n\x22a\x22:1\n\x7d" = some (Json.obj [("a", Json.num "1")]) := rfl
example : jsonParse "\x7b\x22a\x22:1\x7d\nnoise" = none := rfl
example : jsonParse "\x7b\x22a\x22:" = none := rfl
example : jsonParse "  \x7b\x22a\x22:\n1\x7d" = some (Json.obj [("a", Json.num "1")]) := rfl
example : jsonParse "\x7b\x22label\x22:\x22speech\x22,\x22confidence\x22:0.92\x7d" =
    some (Json.obj [("label", Json.str "speech"), ("confidence", Json.num "0.92")]) := rfl

/-- Whitespace characters removed by the JavaScript `trim` (ASCII part). -/
def isJsWs (c : Char) : Bool :=
  c = ' ' || c = '\t' || c = '\n' || c = '\r' || c = '\x0b' || c = '\x0c'

/-- Drop leading JavaScript whitespace from a character list. -/
def dropWsList : List Char → List Char
  | [] => []
  | c :: cs => if isJsWs c then dropWsList cs else c :: cs

/-- `stdout.trim()`: remove leading and trailing whitespace. -/
def jsTrim (s : String) : String :=
  String.mk ((dropWsList (dropWsList s.data).reverse).reverse)

/-- Worker for `jsSplitNl`, carrying the current segment reversed. -/
def splitNlGo : List Char → List Char → List String
  | [], acc => [String.mk acc.reverse]
  | c :: cs, acc =>
    if c = '\n' then String.mk acc.reverse :: splitNlGo cs []
    else splitNlGo cs (c :: acc)

/-- `s.split("\n")`: segments between newline separators; the split of the
empty string is the one-element list holding the empty string. -/
def jsSplitNl (s : String) : List String :=
  splitNlGo s.data []

/-- `line.startsWith("\x7b")`: the raw first character is an opening brace. -/
def startsWithBrace (l : String) : Bool :=
  match l.data with
  | c :: _ => c = '\x7b'
  | [] => false

/-- Inner loop of the extraction in the close handler: starting from the
candidate text `acc` (the candidate line, possibly already extended), each
following line is appended first and a parse is attempted only after the
append, exactly as `jsonLines.push(lines[j])` precedes the guarded
`JSON.parse(jsonLines.join("\n"))` in the source.  With no following lines
the loop body never runs and no parse is attempted. -/
def buildForward : List String → String → Option Json
  | [], _ => none
  | l :: rest, acc =>
    match jsonParse (acc ++ "\n" ++ l) with
    | some v => some v
    | none => buildForward rest (acc ++ "\n" ++ l)

/-- Outer loop of the extraction: lines are scanned from the last to the
first (the recursion tries the later suffix before the head), a candidate
start is a line whose raw text begins with an opening brace, and the first
candidate whose forward accumulation parses wins.  A successful parse of
text beginning with a brace is always an object, hence truthy, so the
`if (jsonResult) break` in the source always exits after a success. -/
def extractLines : List String → Option Json
  | [] => none
  | l :: rest =>
    match extractLines rest with
    | some v => some v
    | none => if startsWithBrace l then buildForward rest l else none

/-- Trailing-JSON extraction over the captured stdout buffer:
`stdout.trim().split("\n")` then the backward scan. -/
def extractJson (stdout : String) : Option Json :=
  extractLines (jsSplitNl (jsTrim stdout))

/-- Variant of the scan following the specification text, which says a line
is a candidate start when it begins with a brace after trimming that line.
This definition exists only to be compared against `extractLines`, which is
the one translated from the source. -/
def extractLinesTrimmedCandidates : List String → Option Json
  | [] => none
  | l :: rest =>
    match extractLinesTrimmedCandidates rest with
    | some v => some v
    | none =>
      if startsWithBrace (jsTrim l) then buildForward rest l else none

/-- Extraction as the specification text describes it (candidate test on the
trimmed line); compared against `extractJson`. -/
def extractJsonTrimmedCandidates (stdout : String) : Option Json :=
  extractLinesTrimmedCandidates (jsSplitNl (jsTrim stdout))

/-- A `NextResponse.json(body, status)` value. -/
structure HttpResponse where
  status : Nat
  body : Json

/-- Field lookup in a JSON object body. -/
def jsonGet : Json → String → Option Json
  | Json.obj kvs, k => Option.map (fun p => p.2) (kvs.find? (fun p => p.1 == k))
  | _, _ => none

/-- Response for a request with no audio data: status 400. -/
def badRequestResp : HttpResponse :=
  ⟨400, Json.obj [("error", Json.str "No audio data provided")]⟩

/-- Response when the clean-exit extraction finds no JSON: status 500 with
both buffers verbatim. -/
def parseFailureResp (stdout stderr : String) : HttpResponse :=
  ⟨500, Json.obj [("error", Json.str "Failed to parse classification results"),
                  ("stdout", Json.str stdout),
                  ("stderr", Json.str stderr)]⟩

/-- Response of the catch branch inside the clean-exit case: status 500. -/
def processErrorResp (details stdout stderr : String) : HttpResponse :=
  ⟨500, Json.obj [("error", Json.str "Failed to process classification results"),
                  ("details", Json.str details),
                  ("stdout", Json.str stdout),
                  ("stderr", Json.str stderr)]⟩

/-- Response for a non-zero exit code: status 500 carrying the code and both
buffers. -/
def processFailureResp (code : Int) (stdout stderr : String) : HttpResponse :=
  ⟨500, Json.obj [("error", Json.str "MediaPipe classification failed"),
                  ("code", Json.num (toString code)),
                  ("stderr", Json.str stderr),
                  ("stdout", Json.str stdout)]⟩

/-- Response of the timeout callback: status 408. -/
def timeoutResp : HttpResponse :=
  ⟨408, Json.obj [("error", Json.str "Classification timeout"),
                  ("message", Json.str "MediaPipe classification took too long")]⟩

/-- Response of the outer catch of the handler: status 500. -/
def internalErrorResp (details : String) : HttpResponse :=
  ⟨500, Json.obj [("error", Json.str "Internal server error"),
                  ("details", Json.str details)]⟩

/-- The `close`-event callback: on exit code 0 run trailing-JSON extraction
over the stdout buffer (success resolves status 200 with the parsed value as
the whole body; failure resolves the parse-failure response); on any other
code resolve the process-failure response without attempting extraction.
The catch branch around the extraction is omitted here because the guarded
parse never throws; `handleCloseE` below keeps it and is proved equal. -/
def handleClose (code : Int) (stdout stderr : String) : HttpResponse :=
  if code = 0 then
    match extractJson stdout with
    | some v => ⟨200, v⟩
    | none => parseFailureResp stdout stderr
  else processFailureResp code stdout stderr

/-- `JSON.parse` as a throwing primitive: an exception is an `error` value. -/
def jsParseE (s : String) : Except String Json :=
  match jsonParse s with
  | some v => Except.ok v
  | none => Except.error "Unexpected token in JSON"

/-- The guarded parse in the inner loop: `try ... catch` around
`JSON.parse`, swallowing the exception. -/
def guardedParse (s : String) : Option Json :=
  match jsParseE s with
  | Except.ok v => some v
  | Except.error _ => none

/-- Exception-aware image of `buildForward`: the only throwing operation in
the loop body is the parse, and the source guards it. -/
def buildForwardE : List String → String → Except String (Option Json)
  | [], _ => Except.ok none
  | l :: rest, acc =>
    match guardedParse (acc ++ "\n" ++ l) with
    | some v => Except.ok (some v)
    | none => buildForwardE rest (acc ++ "\n" ++ l)

/-- Exception-aware image of `extractLines`. -/
def extractLinesE : List String → Except String (Option Json)
  | [] => Except.ok none
  | l :: rest =>
    match extractLinesE rest with
    | Except.ok (some v) => Except.ok (some v)
    | Except.ok none =>
      if startsWithBrace l then buildForwardE rest l else Except.ok none
    | Except.error e => Except.error e

/-- The whole body of the `try` in the clean-exit case, in the exception
monad: split, scan, and resolve either the 200 response or the
parse-failure response. -/
def close0E (stdout stderr : String) : Except String HttpResponse :=
  match extractLinesE (jsSplitNl (jsTrim stdout)) with
  | Except.ok (some v) => Except.ok ⟨200, v⟩
  | Except.ok none => Except.ok (parseFailureResp stdout stderr)
  | Except.error e => Except.error e

/-- The `close`-event callback with its catch branch kept: an exception
escaping the `try` would resolve the process-error response. -/
def handleCloseE (code : Int) (stdout stderr : String) : HttpResponse :=
  if code = 0 then
    match close0E stdout stderr with
    | Except.ok r => r
    | Except.error msg => processErrorResp msg stdout stderr
  else processFailureResp code stdout stderr

/-- Whether an exception-monad computation completed normally. -/
def exceptOk : Except String HttpResponse → Bool
  | Except.ok _ => true
  | Except.error _ => false

example : extractJson "noise\n\x7b\x22a\x22:1\x7d" = none := rfl
example : extractJson "log line\n\x7b\n\x22a\x22:1\n\x7d\n" =
    some (Json.obj [("a", Json.num "1")]) := rfl
example : extractJson "noise\n  \x7b\x22a\x22:\n1\x7d" = none := rfl

/-- Events that can reach the promise executor's registrations: a chunk on
either stream, the `close` event with an exit code, the child-process
`error` event (for which the source registers no handler), and the firing
of the 60000 ms timeout callback. -/
inductive SpawnEvent where
  | stdoutData (chunk : String)
  | stderrData (chunk : String)
  | close (code : Int)
  | errorEvt (msg : String)
  | timeoutFire

/-- State of one invocation's promise: the two append-only buffers, whether
`python.kill()` has been called, and the value the promise has resolved
with, if any. -/
structure PromiseState where
  stdoutBuf : String
  stderrBuf : String
  killed : Bool
  resolved : Option HttpResponse

/-- A JavaScript promise resolves at most once: a second resolution is
ignored. -/
def resolveOnce (cur : Option HttpResponse) (r : HttpResponse) :
    Option HttpResponse :=
  match cur with
  | some r0 => some r0
  | none => some r

/-- One event against the handlers the executor registers: data handlers
append to their buffer, the close handler resolves with `handleClose` over
the buffers accumulated so far, the error event has no registered handler
and changes nothing, and the timeout callback kills the process and
resolves with the timeout response. -/
def spawnStep (s : PromiseState) : SpawnEvent → PromiseState
  | SpawnEvent.stdoutData d => { s with stdoutBuf := s.stdoutBuf ++ d }
  | SpawnEvent.stderrData d => { s with stderrBuf := s.stderrBuf ++ d }
  | SpawnEvent.close code =>
    { s with
      resolved := resolveOnce s.resolved (handleClose code s.stdoutBuf s.stderrBuf) }
  | SpawnEvent.errorEvt _ => s
  | SpawnEvent.timeoutFire =>
    { s with killed := true, resolved := resolveOnce s.resolved timeoutResp }

/-- Initial promise state: empty buffers, not killed, unresolved. -/
def initState : PromiseState := ⟨"", "", false, none⟩

/-- Run one invocation's event sequence from the initial state. -/
def runSpawn (events : List SpawnEvent) : PromiseState :=
  events.foldl spawnStep initState

/-- The timer duration passed to `setTimeout` in the source. -/
def timeoutMs : Nat := 60000

/-- Events that are neither the close event nor the timeout firing; while
only such events occur, the invocation is still running and undecided. -/
def nonTerminal : SpawnEvent → Bool
  | SpawnEvent.close _ => false
  | SpawnEvent.timeoutFire => false
  | _ => true

/-- The parsed request body: both fields may be absent. -/
structure ReqBody where
  audioData : Option String
  filename : Option String

/-- JavaScript falsiness of an optional string: absent or empty. -/
def jsFalsy : Option String → Bool
  | none => true
  | some s => s == ""

/-- `a || d` on an optional string, as in `filename || "uploaded_audio"`. -/
def jsOrDefault : Option String → String → String
  | none, d => d
  | some s, d => if s == "" then d else s

/-- Outcome of the validation stage: either an immediate response, or the
executable and argument list handed to `spawn`. -/
inductive Step1 where
  | reject (r : HttpResponse)
  | invoke (exe : String) (args : List String)

/-- `path.join(process.cwd(), "scripts", "mediapipe_audio_classifier.py")`. -/
def scriptPathOf (cwd : String) : String :=
  cwd ++ "/scripts/mediapipe_audio_classifier.py"

/-- The handler before the promise: reject falsy `audioData` with the 400
response, otherwise spawn `python3` with the script path, the audio data
and the defaulted filename. -/
def validateAndInvoke (cwd : String) (req : ReqBody) : Step1 :=
  if jsFalsy req.audioData then Step1.reject badRequestResp
  else Step1.invoke "python3"
    [scriptPathOf cwd, req.audioData.getD "", jsOrDefault req.filename "uploaded_audio"]

/-- The whole handler on a parsed request body: validation, then the
promise over the spawned process's events.  `none` means the promise never
resolves and no response is produced. -/
def POST (cwd : String) (req : ReqBody) (events : List SpawnEvent) :
    Option HttpResponse :=
  match validateAndInvoke cwd req with
  | Step1.reject r => some r
  | Step1.invoke _ _ => (runSpawn events).resolved

/-- When no line of the scanned list begins with an opening brace, the
backward scan finds no candidate start and the extraction fails. -/
theorem extractLines_none (ls : List String)
    (h : ∀ l ∈ ls, startsWithBrace l = false) : extractLines ls = none := by
  induction ls with
  | nil => rfl
  | cons l rest ih =>
    have hrest : extractLines rest = none :=
      ih (fun x hx => h x (List.mem_cons_of_mem _ hx))
    have hl : startsWithBrace l = false := h l (List.mem_cons_self _ _)
    simp [extractLines, hrest, hl]

/-- One event never unresolves a resolved promise. -/
theorem spawnStep_resolved_stable (s : PromiseState) (e : SpawnEvent)
    (r : HttpResponse) (h : s.resolved = some r) :
    (spawnStep s e).resolved = some r := by
  cases e <;> simp [spawnStep, resolveOnce, h]

/-- A resolved promise stays resolved with the same value across any later
events. -/
theorem runFrom_resolved_stable (events : List SpawnEvent) (s : PromiseState)
    (r : HttpResponse) (h : s.resolved = some r) :
    (events.foldl spawnStep s).resolved = some r := by
  induction events generalizing s with
  | nil => simpa using h
  | cons e rest ih => exact ih _ (spawnStep_resolved_stable s e r h)

/-- One event never resets the killed flag. -/
theorem spawnStep_killed_stable (s : PromiseState) (e : SpawnEvent)
    (h : s.killed = true) : (spawnStep s e).killed = true := by
  cases e <;> simp [spawnStep, h]

/-- A killed process stays killed across any later events. -/
theorem runFrom_killed_stable (events : List SpawnEvent) (s : PromiseState)
    (h : s.killed = true) : (events.foldl spawnStep s).killed = true := by
  induction events generalizing s with
  | nil => simpa using h
  | cons e rest ih => exact ih _ (spawnStep_killed_stable s e h)

/-- While only non-terminal events occur, the promise stays unresolved and
the process unkilled. -/
theorem runFrom_quiet (events : List SpawnEvent) (s : PromiseState)
    (h : ∀ e ∈ events, nonTerminal e = true) :
    (events.foldl spawnStep s).resolved = s.resolved ∧
    (events.foldl spawnStep s).killed = s.killed := by
  induction events generalizing s with
  | nil => exact ⟨rfl, rfl⟩
  | cons e rest ih =>
    have he : nonTerminal e = true := h e (List.mem_cons_self _ _)
    have hrest : ∀ x ∈ rest, nonTerminal x = true :=
      fun x hx => h x (List.mem_cons_of_mem _ hx)
    have hstep : (spawnStep s e).resolved = s.resolved ∧
        (spawnStep s e).killed = s.killed := by
      cases e <;> simp_all [spawnStep, nonTerminal]
    obtain ⟨h1, h2⟩ := ih (spawnStep s e) hrest
    exact ⟨h1.trans hstep.1, h2.trans hstep.2⟩

/-- The guard around the throwing parse recovers exactly the total parse. -/
theorem guardedParse_eq (s : String) : guardedParse s = jsonParse s := by
  unfold guardedParse jsParseE
  cases jsonParse s <;> rfl

/-- The exception-aware inner loop never throws and agrees with the total
inner loop. -/
theorem buildForwardE_eq (ls : List String) (acc : String) :
    buildForwardE ls acc = Except.ok (buildForward ls acc) := by
  induction ls generalizing acc with
  | nil => rfl
  | cons l rest ih =>
    simp only [buildForwardE, buildForward, guardedParse_eq]
    cases jsonParse (acc ++ "\n" ++ l) <;> simp [ih]

/-- The exception-aware scan never throws and agrees with the total scan. -/
theorem extractLinesE_eq (ls : List String) :
    extractLinesE ls = Except.ok (extractLines ls) := by
  induction ls with
  | nil => rfl
  | cons l rest ih =>
    simp only [extractLinesE, extractLines, ih]
    cases extractLines rest with
    | some v => rfl
    | none =>
      by_cases hb : startsWithBrace l = true
      · simp [hb, buildForwardE_eq]
      · simp [hb]

/-- The whole clean-exit `try` body completes normally and computes the
same response as the catch-free model. -/
theorem close0E_eq (stdout stderr : String) :
    close0E stdout stderr = Except.ok (handleClose 0 stdout stderr) := by
  unfold close0E handleClose extractJson
  rw [extractLinesE_eq]
  cases extractLines (jsSplitNl (jsTrim stdout)) <;> simp

/-- C1: the claim says a clean exit whose trimmed stdout ends in a line that
is itself a valid JSON object yields that object with status 200.  On the
code this fails: at stdout `noise\n\x7b"a":1\x7d` with exit code 0, the final
line parses as JSON on its own, yet the extraction returns nothing — the
inner loop appends a continuation line before its first parse attempt, so a
lone trailing JSON line is never parsed — and the handler resolves the 500
parse-failure response instead of 200. -/
theorem classify_trailing_single_line_json_lost :
    jsonParse "\x7b\x22a\x22:1\x7d" = some (Json.obj [("a", Json.num "1")]) ∧
    extractJson "noise\n\x7b\x22a\x22:1\x7d" = none ∧
    handleClose 0 "noise\n\x7b\x22a\x22:1\x7d" "" =
      parseFailureResp "noise\n\x7b\x22a\x22:1\x7d" "" ∧
    (handleClose 0 "noise\n\x7b\x22a\x22:1\x7d" "").status = 500 :=
  ⟨rfl, rfl, rfl, rfl⟩

/-- C2: counterexample.  The claim says a line that begins with a brace
after trimming (such as an indented brace line) is a candidate start.  On
stdout `noise\n  \x7b"a":\n1\x7d` with exit 0, the second line begins with a
brace after trimming, and the spec-worded trimmed-candidate scan extracts
the object, but the code's scan — which tests the raw line — finds no
candidate and fails. -/
theorem classify_candidate_trimmed_counterexample :
    startsWithBrace (jsTrim "  \x7b\x22a\x22:") = true ∧
    startsWithBrace "  \x7b\x22a\x22:" = false ∧
    extractJson "noise\n  \x7b\x22a\x22:\n1\x7d" = none ∧
    extractJsonTrimmedCandidates "noise\n  \x7b\x22a\x22:\n1\x7d" =
      some (Json.obj [("a", Json.num "1")]) :=
  ⟨rfl, rfl, rfl, rfl⟩

/-- C2: amended.  The backward scan treats as a candidate start only a line
whose raw text begins with a brace; hence when no raw line begins with a
brace, extraction fails, even if some line begins with a brace after
trimming. -/
theorem classify_candidate_requires_raw_brace (stdout : String)
    (h : ∀ l ∈ jsSplitNl (jsTrim stdout), startsWithBrace l = false) :
    extractJson stdout = none :=
  extractLines_none _ h

/-- C2: witness for the amended theorem at stdout
`noise\n  \x7b"a":\n1\x7d`, whose lines all fail the raw-brace test. -/
theorem classify_candidate_requires_raw_brace_witness :
    (∀ l ∈ jsSplitNl (jsTrim "noise\n  \x7b\x22a\x22:\n1\x7d"),
      startsWithBrace l = false) ∧
    extractJson "noise\n  \x7b\x22a\x22:\n1\x7d" = none :=
  ⟨by decide, classify_candidate_requires_raw_brace _ (by decide)⟩

/-- C4: with exit code 0 and stdout `log line\n\x7b\n"a":1\n\x7d\n`, the
extraction accumulates forward from the brace line until the parse
succeeds and yields the object, and the handler resolves it with
status 200 as the whole body. -/
theorem classify_multiline_json_extraction :
    extractJson "log line\n\x7b\n\x22a\x22:1\n\x7d\n" =
      some (Json.obj [("a", Json.num "1")]) ∧
    handleClose 0 "log line\n\x7b\n\x22a\x22:1\n\x7d\n" "" =
      ⟨200, Json.obj [("a", Json.num "1")]⟩ ∧
    (handleClose 0 "log line\n\x7b\n\x22a\x22:1\n\x7d\n" "").status = 200 :=
  ⟨rfl, rfl, rfl⟩

/-- C5: a non-zero exit code always resolves the process-failure response,
carrying that exact code and both buffers verbatim, with no extraction
attempted — the response is the same for every stdout, including one
holding a valid trailing JSON object. -/
theorem classify_nonzero_exit_process_failure (code : Int)
    (stdout stderr : String) (h : code ≠ 0) :
    handleClose code stdout stderr = processFailureResp code stdout stderr ∧
    (processFailureResp code stdout stderr).status = 500 ∧
    jsonGet (processFailureResp code stdout stderr).body "code" =
      some (Json.num (toString code)) ∧
    jsonGet (processFailureResp code stdout stderr).body "stdout" =
      some (Json.str stdout) ∧
    jsonGet (processFailureResp code stdout stderr).body "stderr" =
      some (Json.str stderr) := by
  refine ⟨?_, rfl, rfl, rfl, rfl⟩
  simp [handleClose, h]

/-- C5: witness at exit code 2 with a stdout whose trailing JSON does
extract on a clean exit, showing the failure path ignores it. -/
theorem classify_nonzero_exit_process_failure_witness :
    (2 : Int) ≠ 0 ∧
    extractJson "\x7b\n\x22a\x22:1\n\x7d" = some (Json.obj [("a", Json.num "1")]) ∧
    handleClose 2 "\x7b\n\x22a\x22:1\n\x7d" "warn" =
      processFailureResp 2 "\x7b\n\x22a\x22:1\n\x7d" "warn" :=
  ⟨by decide, rfl,
    (classify_nonzero_exit_process_failure 2 "\x7b\n\x22a\x22:1\n\x7d" "warn"
      (by decide)).1⟩

/-- C6: on exit code 0 with a stdout none of whose lines begins with a
brace, extraction fails and the handler resolves the 500 parse-failure
response carrying both buffers verbatim alongside the error field. -/
theorem classify_no_brace_parse_failure (stdout stderr : String)
    (h : ∀ l ∈ jsSplitNl (jsTrim stdout), startsWithBrace l = false) :
    extractJson stdout = none ∧
    handleClose 0 stdout stderr = parseFailureResp stdout stderr ∧
    (parseFailureResp stdout stderr).status = 500 ∧
    jsonGet (parseFailureResp stdout stderr).body "error" =
      some (Json.str "Failed to parse classification results") ∧
    jsonGet (parseFailureResp stdout stderr).body "stdout" =
      some (Json.str stdout) ∧
    jsonGet (parseFailureResp stdout stderr).body "stderr" =
      some (Json.str stderr) := by
  have hx : extractJson stdout = none := extractLines_none _ h
  refine ⟨hx, ?_, rfl, rfl, rfl, rfl⟩
  simp [handleClose, hx]

/-- C6: witness at a purely textual stdout with no brace line. -/
theorem classify_no_brace_parse_failure_witness :
    (∀ l ∈ jsSplitNl (jsTrim "Loading model...\nDone."),
      startsWithBrace l = false) ∧
    handleClose 0 "Loading model...\nDone." "warn" =
      parseFailureResp "Loading model...\nDone." "warn" :=
  ⟨by decide,
    (classify_no_brace_parse_failure "Loading model...\nDone." "warn"
      (by decide)).2.1⟩

/-- C7: when the process runs past the deadline — only data arrives before
the 60000 ms timer fires — the timeout callback kills the process and
resolves the 408 response with error and message fields; whatever events
follow (including a late close), the promise keeps that single resolution,
so no 200 success and no parse-failure response is ever produced. -/
theorem classify_timeout_kills_and_resolves (pre post : List SpawnEvent)
    (h : ∀ e ∈ pre, nonTerminal e = true) :
    timeoutMs = 60000 ∧
    (runSpawn (pre ++ SpawnEvent.timeoutFire :: post)).killed = true ∧
    (runSpawn (pre ++ SpawnEvent.timeoutFire :: post)).resolved =
      some timeoutResp ∧
    timeoutResp.status = 408 ∧
    jsonGet timeoutResp.body "error" = some (Json.str "Classification timeout") ∧
    jsonGet timeoutResp.body "message" =
      some (Json.str "MediaPipe classification took too long") ∧
    (∀ b, (runSpawn (pre ++ SpawnEvent.timeoutFire :: post)).resolved ≠
      some ⟨200, b⟩) ∧
    (∀ s t, (runSpawn (pre ++ SpawnEvent.timeoutFire :: post)).resolved ≠
      some (parseFailureResp s t)) := by
  have hq := runFrom_quiet pre initState h
  have hrun : runSpawn (pre ++ SpawnEvent.timeoutFire :: post) =
      post.foldl spawnStep
        (spawnStep (pre.foldl spawnStep initState) SpawnEvent.timeoutFire) := by
    simp [runSpawn, List.foldl_append]
  have h1 : (spawnStep (pre.foldl spawnStep initState)
      SpawnEvent.timeoutFire).resolved = some timeoutResp := by
    have : (pre.foldl spawnStep initState).resolved = none := by
      rw [hq.1]; rfl
    simp [spawnStep, resolveOnce, this]
  have h2 : (spawnStep (pre.foldl spawnStep initState)
      SpawnEvent.timeoutFire).killed = true := by
    simp [spawnStep]
  have hres : (runSpawn (pre ++ SpawnEvent.timeoutFire :: post)).resolved =
      some timeoutResp := by
    rw [hrun]; exact runFrom_resolved_stable post _ _ h1
  have hkill : (runSpawn (pre ++ SpawnEvent.timeoutFire :: post)).killed =
      true := by
    rw [hrun]; exact runFrom_killed_stable post _ h2
  refine ⟨rfl, hkill, hres, rfl, rfl, rfl, ?_, ?_⟩
  · intro b heq
    rw [hres] at heq
    simp [timeoutResp] at heq
  · intro s t heq
    rw [hres] at heq
    simp [timeoutResp, parseFailureResp] at heq

/-- C7: witness with a stdout chunk before the timer fires and a late close
after the kill. -/
theorem classify_timeout_kills_and_resolves_witness :
    (∀ e ∈ [SpawnEvent.stdoutData "partial"], nonTerminal e = true) ∧
    (runSpawn ([SpawnEvent.stdoutData "partial"] ++
      SpawnEvent.timeoutFire :: [SpawnEvent.close 0])).killed = true ∧
    (runSpawn ([SpawnEvent.stdoutData "partial"] ++
      SpawnEvent.timeoutFire :: [SpawnEvent.close 0])).resolved =
      some timeoutResp :=
  ⟨by decide,
    (classify_timeout_kills_and_resolves [SpawnEvent.stdoutData "partial"]
      [SpawnEvent.close 0] (by decide)).2.1,
    (classify_timeout_kills_and_resolves [SpawnEvent.stdoutData "partial"]
      [SpawnEvent.close 0] (by decide)).2.2.1⟩

/-- C8: trailing-JSON extraction and the close handler are pure functions
of the recorded transcript and exit code: two runs over an identical
transcript and identical code give identical results. -/
theorem classify_extraction_deterministic (stdoutA stderrA : String)
    (codeA : Int) (stdoutB stderrB : String) (codeB : Int)
    (hs : stdoutA = stdoutB) (ht : stderrA = stderrB) (hc : codeA = codeB) :
    extractJson stdoutA = extractJson stdoutB ∧
    handleClose codeA stdoutA stderrA = handleClose codeB stdoutB stderrB := by
  subst hs ht hc
  exact ⟨rfl, rfl⟩

/-- C8: witness at one concrete transcript replayed twice. -/
theorem classify_extraction_deterministic_witness :
    extractJson "noise\n\x7b\x22a\x22:1\x7d" = extractJson "noise\n\x7b\x22a\x22:1\x7d" ∧
    handleClose 0 "noise\n\x7b\x22a\x22:1\x7d" "w" =
      handleClose 0 "noise\n\x7b\x22a\x22:1\x7d" "w" :=
  classify_extraction_deterministic "noise\n\x7b\x22a\x22:1\x7d" "w" 0
    "noise\n\x7b\x22a\x22:1\x7d" "w" 0 rfl rfl rfl

/-- C9: a request with absent or empty audio data is rejected with the 400
response carrying an error field, before any invocation — the whole
handler's response is the rejection whatever the process events would have
been; with audio data present, the worker is invoked as
`python3 script-path audioData filename`, the filename defaulting to
`uploaded_audio` when absent. -/
theorem classify_request_validation (cwd a : String) (fname : Option String)
    (events : List SpawnEvent) (h : a ≠ "") :
    validateAndInvoke cwd ⟨none, fname⟩ = Step1.reject badRequestResp ∧
    validateAndInvoke cwd ⟨some "", fname⟩ = Step1.reject badRequestResp ∧
    POST cwd ⟨none, fname⟩ events = some badRequestResp ∧
    POST cwd ⟨some "", fname⟩ events = some badRequestResp ∧
    badRequestResp.status = 400 ∧
    jsonGet badRequestResp.body "error" =
      some (Json.str "No audio data provided") ∧
    validateAndInvoke cwd ⟨some a, fname⟩ =
      Step1.invoke "python3"
        [scriptPathOf cwd, a, jsOrDefault fname "uploaded_audio"] ∧
    jsOrDefault none "uploaded_audio" = "uploaded_audio" := by
  refine ⟨rfl, rfl, rfl, rfl, rfl, rfl, ?_, rfl⟩
  have hb : (a == "") = false := by
    simp [h]
  simp [validateAndInvoke, jsFalsy, hb]

/-- C9: witness at the concrete request of the specification's scenario. -/
theorem classify_request_validation_witness :
    "abc" ≠ "" ∧
    validateAndInvoke "/app" ⟨some "abc", some "x.wav"⟩ =
      Step1.invoke "python3"
        [scriptPathOf "/app", "abc", jsOrDefault (some "x.wav") "uploaded_audio"] :=
  ⟨by decide,
    (classify_request_validation "/app" "abc" (some "x.wav") [] (by decide)).2.2.2.2.2.2.1⟩

/-- C3: the claim says a failure to start the worker surfaces as a 500
response with error and details fields.  On the code this fails: a missing
executable is reported by the child process error event, for which the
source registers no handler, and the exception cannot reach the outer
catch because the handler has already returned the pending promise; so the
promise never resolves and no response at all is produced, as evaluated
here, while the internal-error response the claim demands (which the code
only produces for exceptions thrown before spawning, such as a malformed
request body) is never resolved. -/
theorem classify_spawn_error_unhandled :
    runSpawn [SpawnEvent.errorEvt "spawn python3 ENOENT"] = initState ∧
    POST "/app" ⟨some "abc", some "x.wav"⟩
      [SpawnEvent.errorEvt "spawn python3 ENOENT"] = none ∧
    (internalErrorResp "spawn python3 ENOENT").status = 500 ∧
    jsonGet (internalErrorResp "spawn python3 ENOENT").body "error" =
      some (Json.str "Internal server error") ∧
    jsonGet (internalErrorResp "spawn python3 ENOENT").body "details" =
      some (Json.str "spawn python3 ENOENT") :=
  ⟨rfl, rfl, rfl, rfl, rfl⟩

/-- C10: the body of the clean-exit try block is total — split, the raw
brace test, joining, and the guarded parse never throw — so the
exception-aware model always completes normally, agrees with the
catch-free handler, and the catch branch resolving the process-error
response is unreachable on exit code 0. -/
theorem classify_clean_exit_extraction_total (code : Int)
    (stdout stderr : String) :
    exceptOk (close0E stdout stderr) = true ∧
    handleCloseE code stdout stderr = handleClose code stdout stderr ∧
    (∀ d, handleCloseE 0 stdout stderr ≠ processErrorResp d stdout stderr) := by
  have hok := close0E_eq stdout stderr
  have hEq0 : handleCloseE 0 stdout stderr = handleClose 0 stdout stderr := by
    simp [handleCloseE, hok]
  refine ⟨by rw [hok]; rfl, ?_, ?_⟩
  · by_cases hc : code = 0
    · subst hc; exact hEq0
    · simp [handleCloseE, handleClose, hc]
  · intro d heq
    rw [hEq0] at heq
    unfold handleClose at heq
    simp only [if_pos rfl] at heq
    cases hx : extractJson stdout with
    | some v =>
      rw [hx] at heq
      have := congrArg HttpResponse.status heq
      simp [processErrorResp] at this
    | none =>
      rw [hx] at heq
      have := congrArg (fun r => jsonGet r.body "details") heq
      simp [parseFailureResp, processErrorResp, jsonGet] at this

/-- C10: witness at one concrete transcript and exit code. -/
theorem classify_clean_exit_extraction_total_witness :
    exceptOk (close0E "noise\n\x7b\x22a\x22:1\x7d" "w") = true ∧
    handleCloseE 0 "noise\n\x7b\x22a\x22:1\x7d" "w" =
      handleClose 0 "noise\n\x7b\x22a\x22:1\x7d" "w" :=
  ⟨(classify_clean_exit_extraction_total 0 "noise\n\x7b\x22a\x22:1\x7d" "w").1,
    (classify_clean_exit_extraction_total 0 "noise\n\x7b\x22a\x22:1\x7d" "w").2.1⟩
